import Mathlib

/-!
# go-reminder-app: the four todo handlers of `main.go`

A shallow embedding of `src/main.go`.  The MongoDB collection is a list of
`Todo` documents in natural order; a handler is a function from the collection
(and its request) to the collection afterwards and what the HTTP client gets.

`log.Fatal` prints its argument and calls `os.Exit(1)`: the statements that
follow it in the source never run, so a handler that reaches it ends the
process and sends no response (`Outcome.fatal`).

The Mongo driver and fiber are libraries outside the repository.  They are
modelled by their documented behaviour on a healthy connection: `_id` is
unique in a collection (`InsertOne` answers a duplicate key error),
`DeleteOne` removes the first match and reports no error without one,
`FindOne(...).Decode` answers `ErrNoDocuments` without a match, `ReplaceOne`
keeps the `_id` of the document it replaces.  Network failures of the store
are not modelled.
-/

namespace ReminderApp

/-! ## Data model -/

/-- Go `primitive.ObjectID`, a `[12]byte`; the bytes in order. -/
structure ObjectID where
  bytes : List Nat
deriving DecidableEq, Repr

/-- Go `primitive.NilObjectID`: the zero value of the array. -/
def NilObjectID : ObjectID := ⟨List.replicate 12 0⟩

/-- Go `ObjectID.IsZero`, which decides `bson:"_id,omitempty"`. -/
def ObjectID.IsZero (id : ObjectID) : Bool := id == NilObjectID

/-- The `Todo` struct of `main.go`. -/
structure Todo where
  ID : ObjectID
  Completed : Bool
  Body : String
deriving DecidableEq, Repr

/-- The zero value `new(Todo)` points to. -/
def Todo.zero : Todo := { ID := NilObjectID, Completed := false, Body := "" }

/-- The errors the handlers pass to `log.Fatal`. -/
inductive Err where
  | unparseable    -- `c.BodyParser` failed
  | invalidHex     -- `primitive.ObjectIDFromHex` failed
  | duplicateKey   -- `InsertOne`: E11000 duplicate key on `_id`
  | noDocuments    -- `SingleResult.Decode`: `mongo.ErrNoDocuments`
  | immutableId    -- `ReplaceOne`: the replacement carries another `_id`
deriving DecidableEq, Repr

/-- A Go slice that may be `nil`: `none` is the nil slice. -/
abbrev GoSlice (α : Type) := Option (List α)

/-- Go `append(xs, x)`. -/
def GoSlice.append {α : Type} : GoSlice α → α → GoSlice α
  | none, x => some [x]
  | some l, x => some (l ++ [x])

/-- Go `len(xs)`. -/
def GoSlice.len {α : Type} : GoSlice α → Nat
  | none => 0
  | some l => l.length

/-- The elements of a Go slice. -/
def GoSlice.elems {α : Type} : GoSlice α → List α
  | none => []
  | some l => l

/-- A scalar JSON value occurring in the responses. -/
inductive JVal where
  | str (s : String)
  | bool (b : Bool)
deriving DecidableEq, Repr

/-- A JSON object with scalar members, in the order they are written. -/
abbrev JObj := List (String × JVal)

/-- The JSON documents the handlers can write. -/
inductive Json where
  | null
  | object (o : JObj)
  | array (xs : List JObj)
deriving DecidableEq, Repr

/-- The Go value a handler hands to `c.JSON`. -/
inductive Payload where
  | todos (ts : GoSlice Todo)        -- `c.JSON(todos)`, a `[]Todo`
  | todo (t : Todo)                  -- `c.JSON(todo)`, a `*Todo`
  | msg (m : String)                 -- `fiber.Map{"msg": m}`
  | success (m : String)             -- `fiber.Map{"success": true, "msg": m}`
deriving DecidableEq, Repr

/-- What the client observes of one handler call: a response with its status
and payload, or the end of the process by `log.Fatal` with no response. -/
inductive Outcome where
  | response (status : Nat) (payload : Payload)
  | fatal (e : Err)
deriving DecidableEq, Repr

/-- The collection `reminder.todos`: its documents in natural order. -/
abbrev Store := List Todo

/-- The `_id` values held by the collection. -/
def ids (s : Store) : List ObjectID := s.map (·.ID)

/-! ## Library functions used by the handlers -/

/-- Number of bytes of a character in UTF-8; Go `len(s)` counts bytes. -/
def utf8Len (c : Char) : Nat :=
  if c.toNat < 0x80 then 1 else if c.toNat < 0x800 then 2 else if c.toNat < 0x10000 then 3 else 4

/-- Go `len(s)` for a string. -/
def goLen (s : String) : Nat := (s.data.map utf8Len).sum

/-- Go `encoding/hex` `reverseHexTable`: the value of a hex digit, either case. -/
def fromHexChar (c : Char) : Option Nat :=
  if '0' ≤ c ∧ c ≤ '9' then some (c.toNat - '0'.toNat)
  else if 'a' ≤ c ∧ c ≤ 'f' then some (c.toNat - 'a'.toNat + 10)
  else if 'A' ≤ c ∧ c ≤ 'F' then some (c.toNat - 'A'.toNat + 10)
  else none

/-- Go `hex.Decode`: pairs of hex digits to bytes; `none` on a character that
is no hex digit or on an odd length. -/
def hexDecode : List Char → Option (List Nat)
  | [] => some []
  | [_] => none
  | p :: q :: rest =>
    match fromHexChar p, fromHexChar q with
    | some a, some b =>
      match hexDecode rest with
      | some bs => some ((a * 16 + b) :: bs)
      | none => none
    | _, _ => none

/-- Go `primitive.ObjectIDFromHex`: the string must be 24 bytes long and
decode as hex; `none` stands for the returned error. -/
def ObjectIDFromHex (s : String) : Option ObjectID :=
  if goLen s ≠ 24 then none
  else match hexDecode s.data with
    | some bs => some ⟨bs⟩
    | none => none

/-- One lowercase hex digit. -/
def hexDigit (n : Nat) : Char :=
  if n < 10 then Char.ofNat ('0'.toNat + n) else Char.ofNat ('a'.toNat + (n - 10))

/-- Go `ObjectID.Hex`: two lowercase hex digits per byte. -/
def ObjectID.Hex (id : ObjectID) : String :=
  ⟨id.bytes.flatMap (fun b => [hexDigit (b / 16), hexDigit (b % 16)])⟩

/-- The JSON object `encoding/json` writes for a `Todo`: the fields in struct
order under their `json` tags.  `omitempty` never drops a `[12]byte`. -/
def Todo.toJObj (t : Todo) : JObj :=
  [("_id", .str t.ID.Hex), ("completed", .bool t.Completed), ("body", .str t.Body)]

/-- The JSON `c.JSON` writes (`json.Marshal`): a nil slice is written as
`null`, a map with its keys sorted. -/
def marshal : Payload → Json
  | .todos none => .null
  | .todos (some l) => .array (l.map Todo.toJObj)
  | .todo t => .object t.toJObj
  | .msg m => .object [("msg", .str m)]
  | .success m => .object [("msg", .str m), ("success", .bool true)]

/-- The members present in a JSON request payload for `createTodo`. -/
structure TodoJSON where
  id : Option ObjectID
  completed : Option Bool
  body : Option String
deriving DecidableEq, Repr

/-- What `c.BodyParser(todo)` does on `todo := new(Todo)`: `none` is a payload
that does not parse (an error); otherwise the members present overwrite the
zero value and the absent ones keep it. -/
def BodyParser : Option TodoJSON → Except Err Todo
  | none => .error .unparseable
  | some p => .ok { ID := p.id.getD Todo.zero.ID,
                    Completed := p.completed.getD Todo.zero.Completed,
                    Body := p.body.getD Todo.zero.Body }

/-- Mongo `collection.Find(ctx, bson.M{})` drained by the cursor loop: every
document, in natural order. -/
def Find (s : Store) : List Todo := s

/-- Mongo `collection.InsertOne(ctx, todo)`.  With `bson:"_id,omitempty"` a zero
`ID` is left out of the document and the driver adds `gen`, the value of
`primitive.NewObjectID()`; otherwise the document keeps its `ID`.  The
server refuses an `_id` already in the collection.  Returns the collection and
`InsertedID`. -/
def InsertOne (s : Store) (doc : Todo) (gen : ObjectID) : Except Err (Store × ObjectID) :=
  let id := if doc.ID.IsZero then gen else doc.ID
  if (ids s).contains id then .error .duplicateKey
  else .ok (s ++ [{ doc with ID := id }], id)

/-- Mongo `collection.DeleteOne(ctx, bson.M{"_id": id})`: removes the first
match; no error when nothing matches. -/
def DeleteOne (s : Store) (id : ObjectID) : Store := s.eraseP (fun t => t.ID == id)

/-- Mongo `collection.FindOne(ctx, bson.M{"_id": id})` followed by
`result.Decode(&todo)`. -/
def FindOne (s : Store) (id : ObjectID) : Except Err Todo :=
  match s.find? (fun t => t.ID == id) with
  | some t => .ok t
  | none => .error .noDocuments

/-- Replace the first document whose `_id` is `id` by `doc`. -/
def replaceFirst (id : ObjectID) (doc : Todo) : Store → Store
  | [] => []
  | t :: rest => if t.ID == id then doc :: rest else t :: replaceFirst id doc rest

/-- Mongo `collection.ReplaceOne(ctx, bson.M{"_id": id}, doc)`: the first match
is replaced by `doc`, which keeps the `_id` of the match (a zero `ID` is left
out of the replacement); a replacement with another `_id` is refused; no error
when nothing matches. -/
def ReplaceOne (s : Store) (id : ObjectID) (doc : Todo) : Except Err Store :=
  match s.find? (fun t => t.ID == id) with
  | none => .ok s
  | some t =>
    if doc.ID.IsZero || doc.ID == t.ID then .ok (replaceFirst id { doc with ID := t.ID } s)
    else .error .immutableId

/-! ## The handlers of `main.go` -/

/-- Handler `getTodos` (main.go 76-95): `var todos []Todo` is nil, every decoded
document is appended, `c.JSON(todos)` answers with the default status 200. -/
def getTodos (s : Store) : Store × Outcome :=
  let todos : GoSlice Todo := (Find s).foldl GoSlice.append none
  (s, .response 200 (.todos todos))

/-- Handler `createTodo` (main.go 97-117).  `req` is the request payload, `gen`
the identifier `primitive.NewObjectID()` yields if the driver needs one. -/
def createTodo (s : Store) (req : Option TodoJSON) (gen : ObjectID) : Store × Outcome :=
  match BodyParser req with
  | .error e => (s, .fatal e)                  -- log.Fatal(err)
  | .ok todo =>
    if todo.Body == "" then (s, .response 400 (.msg "Body is required"))
    else
      match InsertOne s todo gen with
      | .error e => (s, .fatal e)              -- log.Fatal(err)
      | .ok (s', insertedID) =>
        (s', .response 201 (.todo { todo with ID := insertedID }))

/-- Handler `deleteTodo` (main.go 119-133); `id` is `c.Params("id")`. -/
def deleteTodo (s : Store) (id : String) : Store × Outcome :=
  match ObjectIDFromHex id with
  | none => (s, .fatal .invalidHex)            -- log.Fatal(err)
  | some objectID =>
    (DeleteOne s objectID, .response 200 (.success "Todo deleted"))

/-- Handler `updateTodo` (main.go 135-161); `id` is `c.Params("id")`. -/
def updateTodo (s : Store) (id : String) : Store × Outcome :=
  match ObjectIDFromHex id with
  | none => (s, .fatal .invalidHex)            -- log.Fatal(err)
  | some objectID =>
    match FindOne s objectID with
    | .error e => (s, .fatal e)                -- log.Fatal(err)
    | .ok todo =>
      let todo := { todo with Completed := true }
      match ReplaceOne s objectID todo with
      | .error e => (s, .fatal e)              -- log.Fatal(err)
      | .ok s' => (s', .response 200 (.success "Todo updated"))

/-! ## Requests, runs of requests, and the store invariant -/

/-- One request to the API, with what the environment supplies for it. -/
inductive Request where
  | getTodos
  | createTodo (req : Option TodoJSON) (gen : ObjectID)
  | deleteTodo (id : String)
  | updateTodo (id : String)
deriving DecidableEq, Repr

/-- The router of `main`: dispatch of a request to its handler. -/
def handle (s : Store) : Request → Store × Outcome
  | .getTodos => getTodos s
  | .createTodo req gen => createTodo s req gen
  | .deleteTodo id => deleteTodo s id
  | .updateTodo id => updateTodo s id

/-- The collection after a sequence of requests served one after the other;
after a `log.Fatal` the process is gone and nothing more is served. -/
def run (s : Store) : List Request → Store
  | [] => s
  | r :: rest =>
    match handle s r with
    | (s', .response _ _) => run s' rest
    | (s', .fatal _) => s'

/-- The status of the response, if there is one. -/
def Outcome.status? : Outcome → Option Nat
  | .response st _ => some st
  | .fatal _ => none

/-- The `Todo` in the response, if the response carries one. -/
def Outcome.todo? : Outcome → Option Todo
  | .response _ (.todo t) => some t
  | _ => none

/-- The records in the response, if the response carries a list. -/
def Outcome.listed : Outcome → List Todo
  | .response _ (.todos ts) => ts.elems
  | _ => []

/-- Every record has a non-empty body and no two records share an id. -/
def StoreInv (s : Store) : Prop := (∀ t ∈ s, t.Body ≠ "") ∧ (ids s).Nodup

instance (s : Store) : Decidable (StoreInv s) := by
  unfold StoreInv; exact inferInstance

/-- Number of `createTodo` requests in a sequence. -/
def creates (rs : List Request) : Nat :=
  rs.countP (fun r => match r with | .createTodo _ _ => true | _ => false)

/-- Number of `deleteTodo` requests in a sequence. -/
def deletes (rs : List Request) : Nat :=
  rs.countP (fun r => match r with | .deleteTodo _ => true | _ => false)

/-- A sequence of `createTodo` and `deleteTodo` requests, served from `s`, in
which every create succeeds with 201, every delete succeeds with 200, and every
delete targets an identifier returned by an earlier create (`created`) that no
earlier delete targeted (`deleted`). -/
def successfulRun (created deleted : List ObjectID) (s : Store) : List Request → Bool
  | [] => true
  | .createTodo req gen :: rest =>
    let r := createTodo s req gen
    match r.2.status?, r.2.todo? with
    | some 201, some t => successfulRun (t.ID :: created) deleted r.1 rest
    | _, _ => false
  | .deleteTodo id :: rest =>
    let r := deleteTodo s id
    match ObjectIDFromHex id, r.2.status? with
    | some d, some 200 =>
      created.contains d && !deleted.contains d && successfulRun created (d :: deleted) r.1 rest
    | _, _ => false
  | _ :: _ => false

/-- The JSON body of the response, if there is a response. -/
def Outcome.json? : Outcome → Option Json
  | .response _ p => some (marshal p)
  | .fatal _ => none

/-- An identifier used in the examples; its hex form is `exampleHex`. -/
def exampleId : ObjectID := ⟨[101, 161, 178, 195, 212, 229, 246, 7, 24, 41, 58, 75]⟩

/-- The path segment naming `exampleId`. -/
def exampleHex : String := "65a1b2c3d4e5f60718293a4b"

/-- A second identifier used in the examples. -/
def otherId : ObjectID := ⟨[101, 161, 178, 195, 212, 229, 246, 7, 24, 41, 58, 76]⟩

/-- The path segment naming `otherId`. -/
def otherHex : String := "65a1b2c3d4e5f60718293a4c"

/-- A stored record used in the examples. -/
def milk : Todo := { ID := exampleId, Completed := false, Body := "buy milk" }

/-- The payload `{"body":"buy milk"}`. -/
def milkJSON : TodoJSON := { id := none, completed := none, body := some "buy milk" }

/-- The payload `{"body":"buy milk","completed":true}`. -/
def doneJSON : TodoJSON := { id := none, completed := some true, body := some "buy milk" }

/-- The payload `{}`. -/
def emptyJSON : TodoJSON := { id := none, completed := none, body := none }

/-- The payload `{"_id":"65a1b2c3d4e5f60718293a4b","body":"buy milk"}`, which
carries the id of `milk`. -/
def dupJSON : TodoJSON := { id := some exampleId, completed := none, body := some "buy milk" }

/-! ## Facts about the library model -/

theorem foldl_append_some (s l : List Todo) :
    s.foldl GoSlice.append (some l) = some (l ++ s) := by
  induction s generalizing l with
  | nil => simp
  | cons t rest ih => simp [List.foldl, GoSlice.append, ih]

theorem getTodos_nil : getTodos [] = ([], .response 200 (.todos none)) := rfl

theorem getTodos_cons (t : Todo) (rest : Store) :
    getTodos (t :: rest) = (t :: rest, .response 200 (.todos (some (t :: rest)))) := by
  simp [getTodos, Find, List.foldl, GoSlice.append, foldl_append_some]

theorem getTodos_listed (s : Store) : (getTodos s).2.listed = s := by
  cases s with
  | nil => rfl
  | cons t rest => rw [getTodos_cons]; rfl

theorem mem_ids {s : Store} {i : ObjectID} : i ∈ ids s ↔ ∃ t ∈ s, t.ID = i := by
  simp [ids]

theorem InsertOne_dup (s : Store) (doc : Todo) (gen : ObjectID)
    (h : (if doc.ID.IsZero then gen else doc.ID) ∈ ids s) :
    InsertOne s doc gen = .error .duplicateKey := by
  have h' : (ids s).contains (if doc.ID.IsZero then gen else doc.ID) = true := by simpa using h
  unfold InsertOne
  exact if_pos h' 

theorem InsertOne_ok (s : Store) (doc : Todo) (gen : ObjectID)
    (h : (if doc.ID.IsZero then gen else doc.ID) ∉ ids s) :
    InsertOne s doc gen =
      .ok (s ++ [{ doc with ID := if doc.ID.IsZero then gen else doc.ID }],
        if doc.ID.IsZero then gen else doc.ID) := by
  have h' : ¬ (ids s).contains (if doc.ID.IsZero then gen else doc.ID) = true := by simpa using h
  unfold InsertOne
  exact if_neg h' 

/-- The three ways `createTodo` can end. -/
theorem createTodo_cases (s : Store) (req : Option TodoJSON) (gen : ObjectID) :
    (∃ e, createTodo s req gen = (s, .fatal e)) ∨
    (createTodo s req gen = (s, .response 400 (.msg "Body is required")) ∧
      ∃ todo, BodyParser req = .ok todo ∧ todo.Body = "") ∨
    (∃ todo t, BodyParser req = .ok todo ∧ todo.Body ≠ "" ∧
      t = { todo with ID := if todo.ID.IsZero then gen else todo.ID } ∧
      t.ID ∉ ids s ∧ createTodo s req gen = (s ++ [t], .response 201 (.todo t))) := by
  unfold createTodo
  cases hp : BodyParser req with
  | error e => exact Or.inl ⟨e, rfl⟩
  | ok todo =>
    by_cases hb : todo.Body = ""
    · right; left
      simp [hb]
    · by_cases hd : (if todo.ID.IsZero then gen else todo.ID) ∈ ids s
      · left
        exact ⟨.duplicateKey, by simp [hb, InsertOne_dup s todo gen hd]⟩
      · right; right
        refine ⟨todo, _, rfl, hb, rfl, hd, ?_⟩
        simp [hb, InsertOne_ok s todo gen hd]

theorem createTodo_ok (s : Store) (req : Option TodoJSON) (gen : ObjectID) (todo : Todo)
    (hp : BodyParser req = .ok todo) (hb : todo.Body ≠ "")
    (hfresh : (if todo.ID.IsZero then gen else todo.ID) ∉ ids s) :
    createTodo s req gen =
      (s ++ [{ todo with ID := if todo.ID.IsZero then gen else todo.ID }],
        .response 201 (.todo { todo with ID := if todo.ID.IsZero then gen else todo.ID })) := by
  simp [createTodo, hp, hb, InsertOne_ok s todo gen hfresh]

theorem deleteTodo_valid (s : Store) (hex : String) (id : ObjectID)
    (h : ObjectIDFromHex hex = some id) :
    deleteTodo s hex = (DeleteOne s id, .response 200 (.success "Todo deleted")) := by
  simp [deleteTodo, h]

theorem deleteTodo_invalid (s : Store) (hex : String) (h : ObjectIDFromHex hex = none) :
    deleteTodo s hex = (s, .fatal .invalidHex) := by
  simp [deleteTodo, h]

theorem DeleteOne_absent (s : Store) (id : ObjectID) (h : id ∉ ids s) : DeleteOne s id = s := by
  unfold DeleteOne
  apply List.eraseP_of_forall_not
  intro t ht
  have : t.ID ≠ id := fun e => h (mem_ids.2 ⟨t, ht, e⟩)
  simpa using this

theorem ids_DeleteOne_sublist (s : Store) (id : ObjectID) :
    (ids (DeleteOne s id)).Sublist (ids s) :=
  List.Sublist.map _ (List.eraseP_sublist s)

theorem DeleteOne_nodup (s : Store) (id : ObjectID) (h : (ids s).Nodup) :
    (ids (DeleteOne s id)).Nodup :=
  h.sublist (ids_DeleteOne_sublist s id)

theorem DeleteOne_subset (s : Store) (id : ObjectID) : ∀ t ∈ DeleteOne s id, t ∈ s :=
  fun _ ht => (List.eraseP_sublist s).subset ht

theorem DeleteOne_removes (s : Store) (id : ObjectID) (h : (ids s).Nodup) :
    id ∉ ids (DeleteOne s id) := by
  induction s with
  | nil => simp [DeleteOne, ids]
  | cons t rest ih =>
    have hn : t.ID ∉ ids rest ∧ (ids rest).Nodup := by simpa [ids] using h
    by_cases ht : t.ID = id
    · have : DeleteOne (t :: rest) id = rest := by simp [DeleteOne, List.eraseP_cons, ht]
      rw [this, ← ht]; exact hn.1
    · have : DeleteOne (t :: rest) id = t :: DeleteOne rest id := by
        simp [DeleteOne, List.eraseP_cons, ht]
      rw [this]
      intro hm
      have hm' : id = t.ID ∨ id ∈ ids (DeleteOne rest id) := by simpa [ids] using hm
      rcases hm' with e | hm'
      · exact ht e.symm
      · exact ih hn.2 hm'

theorem DeleteOne_keeps (s : Store) (id : ObjectID) (t : Todo) (ht : t ∈ s) (hne : t.ID ≠ id) :
    t ∈ DeleteOne s id := by
  unfold DeleteOne
  exact (List.mem_eraseP_of_neg (by simpa using hne)).2 ht

theorem DeleteOne_length (s : Store) (id : ObjectID) (h : id ∈ ids s) :
    (DeleteOne s id).length + 1 = s.length := by
  obtain ⟨t, ht, e⟩ := mem_ids.1 h
  unfold DeleteOne
  rw [List.length_eraseP_of_mem ht (by simpa using e)]
  have : 0 < s.length := List.length_pos_of_mem ht
  omega

theorem find_some_spec {s : Store} {id : ObjectID} {t : Todo}
    (h : s.find? (fun x => x.ID == id) = some t) : t ∈ s ∧ t.ID = id := by
  refine ⟨List.mem_of_find?_eq_some h, ?_⟩
  have := List.find?_some h
  simpa using this

theorem find_none_spec {s : Store} {id : ObjectID}
    (h : s.find? (fun x => x.ID == id) = none) : id ∉ ids s := by
  intro hm
  obtain ⟨t, ht, e⟩ := mem_ids.1 hm
  have := List.find?_eq_none.1 h t ht
  simp [e] at this

theorem find_isSome_of_mem {s : Store} {id : ObjectID} (h : id ∈ ids s) :
    ∃ t, s.find? (fun x => x.ID == id) = some t := by
  cases hf : s.find? (fun x => x.ID == id) with
  | none => exact absurd h (find_none_spec hf)
  | some t => exact ⟨t, rfl⟩

theorem updateTodo_invalid (s : Store) (hex : String) (h : ObjectIDFromHex hex = none) :
    updateTodo s hex = (s, .fatal .invalidHex) := by
  simp [updateTodo, h]

theorem updateTodo_missing (s : Store) (hex : String) (id : ObjectID)
    (h : ObjectIDFromHex hex = some id) (hf : s.find? (fun x => x.ID == id) = none) :
    updateTodo s hex = (s, .fatal .noDocuments) := by
  simp [updateTodo, h, FindOne, hf]

theorem updateTodo_found (s : Store) (hex : String) (id : ObjectID) (t : Todo)
    (h : ObjectIDFromHex hex = some id) (hf : s.find? (fun x => x.ID == id) = some t) :
    updateTodo s hex =
      (replaceFirst id { t with Completed := true } s, .response 200 (.success "Todo updated")) := by
  simp [updateTodo, h, FindOne, hf, ReplaceOne]

theorem replaceFirst_find (id : ObjectID) (doc : Todo) (hd : doc.ID = id) (s : Store) (t : Todo)
    (hf : s.find? (fun x => x.ID == id) = some t) :
    (replaceFirst id doc s).find? (fun x => x.ID == id) = some doc := by
  induction s with
  | nil => simp at hf
  | cons a rest ih =>
    by_cases ha : a.ID = id
    · simp [replaceFirst, ha, List.find?_cons, hd]
    · have hf' : rest.find? (fun x => x.ID == id) = some t := by
        simpa [List.find?_cons, ha] using hf
      simp [replaceFirst, ha, List.find?_cons, ih hf']

theorem replaceFirst_idem (id : ObjectID) (doc : Todo) (hd : doc.ID = id) (s : Store) :
    replaceFirst id doc (replaceFirst id doc s) = replaceFirst id doc s := by
  induction s with
  | nil => rfl
  | cons a rest ih =>
    by_cases ha : a.ID = id
    · simp [replaceFirst, ha, hd]
    · simp [replaceFirst, ha, ih]

theorem replaceFirst_ids (id : ObjectID) (doc : Todo) (hd : doc.ID = id) (s : Store) :
    ids (replaceFirst id doc s) = ids s := by
  induction s with
  | nil => rfl
  | cons a rest ih =>
    by_cases ha : a.ID = id
    · simp [replaceFirst, ha, ids, hd]
    · have := ih
      simp only [ids] at this
      simp [replaceFirst, ha, ids, this]

theorem replaceFirst_mem (id : ObjectID) (doc : Todo) (s : Store) (x : Todo)
    (hx : x ∈ replaceFirst id doc s) : x = doc ∨ x ∈ s := by
  induction s with
  | nil => simp [replaceFirst] at hx
  | cons a rest ih =>
    by_cases ha : a.ID = id
    · simp [replaceFirst, ha] at hx
      rcases hx with e | hx
      · exact Or.inl e
      · exact Or.inr (List.mem_cons_of_mem _ hx)
    · simp [replaceFirst, ha] at hx
      rcases hx with e | hx
      · exact Or.inr (by simp [e])
      · rcases ih hx with e | h
        · exact Or.inl e
        · exact Or.inr (List.mem_cons_of_mem _ h)

theorem replaceFirst_length (id : ObjectID) (doc : Todo) (s : Store) :
    (replaceFirst id doc s).length = s.length := by
  induction s with
  | nil => rfl
  | cons a rest ih =>
    by_cases ha : a.ID = id
    · simp [replaceFirst, ha]
    · simp [replaceFirst, ha, ih]

theorem eq_of_same_id {s : Store} (h : (ids s).Nodup) {a b : Todo} (ha : a ∈ s) (hb : b ∈ s)
    (e : a.ID = b.ID) : a = b :=
  List.inj_on_of_nodup_map h ha hb e

/-! ## The claims -/

/-- C1, as stated, fails in two ways.  On the empty store the payload
`{"body":"buy milk","completed":true}` is answered 201 with a Todo whose
completed is true, so no answer with completed false exists.  On the store
holding `milk` the payload carrying the id of `milk` parses into a Todo with a
non-empty body and gets no response at all: the insert is refused and the
handler reaches `log.Fatal`. -/
theorem createTodo_completed_counterexample :
    (BodyParser (some doneJSON) = .ok ⟨NilObjectID, true, "buy milk"⟩ ∧
     ¬ ∃ t, (createTodo [] (some doneJSON) exampleId).2 = .response 201 (.todo t) ∧
      t.Body = "buy milk" ∧ t.Completed = false ∧ t.ID ∉ ids []) ∧
    (BodyParser (some dupJSON) = .ok ⟨exampleId, false, "buy milk"⟩ ∧
     createTodo [milk] (some dupJSON) otherId = ([milk], .fatal .duplicateKey) ∧
     (createTodo [milk] (some dupJSON) otherId).2.status? = none) := by
  refine ⟨⟨rfl, ?_⟩, rfl, by decide, by decide⟩
  rintro ⟨t, h, _, hc, _⟩
  have e : (createTodo [] (some doneJSON) exampleId).2 =
      .response 201 (.todo ⟨exampleId, true, "buy milk"⟩) := by decide
  rw [e] at h
  injection h with _ h
  injection h with h
  subst h
  simp at hc

/-- C1, amended: when the payload parses into a Todo with a non-empty body,
every response createTodo gives has status 201 and carries a Todo that is the
one record appended to the store, whose body is the submitted body, whose
completed is the completed of the parsed Todo (false when the payload has no
such member) and whose id is the id of no record that was in the store before;
and createTodo gives that response whenever the identifier the insert uses
(the Todo's own non-zero id, else the one the driver generates) is not in the
store. -/
theorem createTodo_created (s : Store) (req : Option TodoJSON) (gen : ObjectID) (todo : Todo)
    (hp : BodyParser req = .ok todo) (hb : todo.Body ≠ "") :
    (∀ st p, (createTodo s req gen).2 = .response st p →
      st = 201 ∧ ∃ t, p = .todo t ∧ (createTodo s req gen).1 = s ++ [t] ∧
        t.Body = todo.Body ∧ t.Completed = todo.Completed ∧
        (∀ q, req = some q → q.completed = none → t.Completed = false) ∧
        t.ID ∉ ids s) ∧
    ((if todo.ID.IsZero then gen else todo.ID) ∉ ids s →
      ∃ t, (createTodo s req gen).2 = .response 201 (.todo t)) := by
  by_cases hd : (if todo.ID.IsZero then gen else todo.ID) ∈ ids s
  · have hf : createTodo s req gen = (s, .fatal .duplicateKey) := by
      simp [createTodo, hp, hb, InsertOne_dup s todo gen hd]
    refine ⟨?_, fun hn => absurd hd hn⟩
    intro st p h
    rw [hf] at h
    simp at h
  · have hok := createTodo_ok s req gen todo hp hb hd
    refine ⟨?_, fun _ => ⟨_, by rw [hok]⟩⟩
    intro st p h
    rw [hok] at h ⊢
    simp only [Outcome.response.injEq] at h
    obtain ⟨hst, hpl⟩ := h
    refine ⟨hst.symm, _, hpl.symm, rfl, rfl, rfl, ?_, hd⟩
    intro q hreq hc
    subst hreq
    simp only [BodyParser, Except.ok.injEq] at hp
    subst hp
    simp [hc, Todo.zero]

/-- Witness for C1 amended: `{"body":"buy milk"}` on a store of one record. -/
theorem createTodo_created_witness :
    (201 = 201 ∧ ∃ t, Payload.todo ⟨otherId, false, "buy milk"⟩ = .todo t ∧
      (createTodo [milk] (some milkJSON) otherId).1 = [milk] ++ [t] ∧
      t.Body = "buy milk" ∧ t.Completed = false ∧
      (∀ q, some milkJSON = some q → q.completed = none → t.Completed = false) ∧
      t.ID ∉ ids [milk]) ∧
    ∃ t, (createTodo [milk] (some milkJSON) otherId).2 = .response 201 (.todo t) :=
  ⟨(createTodo_created [milk] (some milkJSON) otherId ⟨NilObjectID, false, "buy milk"⟩
      rfl (by decide)).1 201 (.todo ⟨otherId, false, "buy milk"⟩) (by decide),
   (createTodo_created [milk] (some milkJSON) otherId ⟨NilObjectID, false, "buy milk"⟩
      rfl (by decide)).2 (by decide)⟩

/-- C2: a payload that parses but has no body member, or an empty one, is
answered 400 "Body is required" and the store is unchanged. -/
theorem createTodo_body_required (s : Store) (p : TodoJSON) (gen : ObjectID)
    (h : p.body = none ∨ p.body = some "") :
    createTodo s (some p) gen = (s, .response 400 (.msg "Body is required")) := by
  rcases h with h | h <;> simp [createTodo, BodyParser, h, Todo.zero]

/-- Witness for C2: the payload `{}` on a store of one record. -/
theorem createTodo_body_required_witness :
    createTodo [milk] (some emptyJSON) otherId = ([milk], .response 400 (.msg "Body is required")) :=
  createTodo_body_required [milk] emptyJSON otherId (Or.inl rfl)

/-- C3 fails on the code: for the path identifier "not-a-valid-id" deleteTodo
and updateTodo reach `log.Fatal`, which ends the process; the store is
unchanged but the client gets no response, so no status 400 either. -/
theorem invalid_id_ends_process (s : Store) :
    ObjectIDFromHex "not-a-valid-id" = none ∧
    deleteTodo s "not-a-valid-id" = (s, .fatal .invalidHex) ∧
    updateTodo s "not-a-valid-id" = (s, .fatal .invalidHex) ∧
    (deleteTodo s "not-a-valid-id").2.status? = none ∧
    (updateTodo s "not-a-valid-id").2.status? = none :=
  ⟨by decide, rfl, rfl, rfl, rfl⟩

/-- C4 fails on the code for the empty collection: getTodos leaves the store as
it is and answers 200; the body is the JSON array of the records when there
are records, but `null`, not the empty array, when there are none. -/
theorem getTodos_empty_is_null (s : Store) :
    (getTodos s).1 = s ∧ (getTodos s).2.status? = some 200 ∧
    (getTodos s).2.json? = some (if s = [] then .null else .array (s.map Todo.toJObj)) ∧
    (getTodos []).2.json? = some .null ∧
    (getTodos []).2.json? ≠ some (.array []) := by
  refine ⟨?_, ?_, ?_, rfl, by decide⟩
  · cases s <;> simp [getTodos]
  · cases s <;> simp [getTodos, Outcome.status?]
  · cases s with
    | nil => rfl
    | cons t rest => rw [getTodos_cons]; simp [Outcome.json?, marshal]

/-- C5, as stated, fails: after the successful create of
`{"body":"buy milk","completed":true}` on the empty store the list holds no
record with the returned id, that body and completed false. -/
theorem create_then_list_counterexample :
    (createTodo [] (some doneJSON) exampleId).2 =
      .response 201 (.todo ⟨exampleId, true, "buy milk"⟩) ∧
    ¬ ∃ r ∈ (getTodos (createTodo [] (some doneJSON) exampleId).1).2.listed,
      r.ID = exampleId ∧ r.Body = "buy milk" ∧ r.Completed = false := by
  decide

/-- C5, amended: after a createTodo answered 201 with the Todo `t`, for a payload
that parsed into `todo`, getTodos answers 200 with a list that contains a
record with the id returned by the create, the submitted body and the
completed value of the parsed Todo (false when the payload has no such
member); that record is `t` itself. -/
theorem create_then_list (s s' : Store) (req : Option TodoJSON) (gen : ObjectID) (todo t : Todo)
    (hp : BodyParser req = .ok todo)
    (hc : createTodo s req gen = (s', .response 201 (.todo t))) :
    (getTodos s').2.status? = some 200 ∧
    todo.Body ≠ "" ∧
    (∀ p, req = some p → p.completed = none → todo.Completed = false) ∧
    ∃ r ∈ (getTodos s').2.listed,
      r = t ∧ r.ID = t.ID ∧ r.Body = todo.Body ∧ r.Completed = todo.Completed := by
  rcases createTodo_cases s req gen with ⟨e, h⟩ | ⟨h, _⟩ | ⟨todo', t', hp', hb, ht, _, h⟩
  · rw [h] at hc; simp at hc
  · rw [h] at hc; simp at hc
  · rw [h] at hc
    rw [hp] at hp'
    injection hp' with hp'
    subst hp'
    simp only [Prod.mk.injEq, Outcome.response.injEq, Payload.todo.injEq, true_and] at hc
    obtain ⟨hs, htt⟩ := hc
    subst htt
    subst hs
    refine ⟨?_, hb, ?_, ?_⟩
    · cases (s ++ [t']) <;> simp [getTodos, Outcome.status?]
    · intro p hreq hcn
      subst hreq
      simp only [BodyParser, Except.ok.injEq] at hp
      subst hp
      simp [hcn, Todo.zero]
    · rw [getTodos_listed]
      exact ⟨t', by simp, rfl, rfl, by simp [ht], by simp [ht]⟩

/-- Witness for C5 amended: `{"body":"buy milk","completed":true}` on a store of one record. -/
theorem create_then_list_witness :
    (getTodos [milk, ⟨otherId, true, "buy milk"⟩]).2.status? = some 200 ∧
    (⟨NilObjectID, true, "buy milk"⟩ : Todo).Body ≠ "" ∧
    (∀ p, some doneJSON = some p → p.completed = none →
      (⟨NilObjectID, true, "buy milk"⟩ : Todo).Completed = false) ∧
    ∃ r ∈ (getTodos [milk, ⟨otherId, true, "buy milk"⟩]).2.listed,
      r = ⟨otherId, true, "buy milk"⟩ ∧ r.ID = (⟨otherId, true, "buy milk"⟩ : Todo).ID ∧
      r.Body = (⟨NilObjectID, true, "buy milk"⟩ : Todo).Body ∧
      r.Completed = (⟨NilObjectID, true, "buy milk"⟩ : Todo).Completed :=
  create_then_list [milk] [milk, ⟨otherId, true, "buy milk"⟩] (some doneJSON) otherId
    ⟨NilObjectID, true, "buy milk"⟩ ⟨otherId, true, "buy milk"⟩ rfl (by decide)

/-- C6: for a well-formed identifier that matches no record, deleteTodo answers
200 with success true and the store is unchanged; and whenever the identifier
matches no record or the ids of the store are unique, a second deleteTodo of
the same identifier answers the same and leaves the store of the first. -/
theorem deleteTodo_idempotent (s : Store) (hex : String) (id : ObjectID)
    (h : ObjectIDFromHex hex = some id) :
    (id ∉ ids s → deleteTodo s hex = (s, .response 200 (.success "Todo deleted")) ∧
      marshal (.success "Todo deleted") =
        .object [("msg", .str "Todo deleted"), ("success", .bool true)]) ∧
    (id ∉ ids s ∨ (ids s).Nodup →
      deleteTodo (deleteTodo s hex).1 hex = deleteTodo s hex) := by
  constructor
  · intro hn
    rw [deleteTodo_valid s hex id h, DeleteOne_absent s id hn]
    exact ⟨rfl, rfl⟩
  · intro hn
    rw [deleteTodo_valid s hex id h, deleteTodo_valid _ hex id h]
    have : id ∉ ids (DeleteOne s id) := by
      rcases hn with hn | hn
      · rw [DeleteOne_absent s id hn]; exact hn
      · exact DeleteOne_removes s id hn
    rw [DeleteOne_absent _ id this]

/-- Witness for C6: an identifier absent from the store, and one present in it. -/
theorem deleteTodo_idempotent_witness :
    (deleteTodo [milk] otherHex = ([milk], .response 200 (.success "Todo deleted")) ∧
      marshal (.success "Todo deleted") =
        .object [("msg", .str "Todo deleted"), ("success", .bool true)]) ∧
    deleteTodo (deleteTodo [milk] exampleHex).1 exampleHex = deleteTodo [milk] exampleHex :=
  ⟨(deleteTodo_idempotent [milk] otherHex otherId (by decide)).1 (by decide),
   (deleteTodo_idempotent [milk] exampleHex exampleId (by decide)).2 (Or.inr (by decide))⟩

/-- C7: when the identifier names a record of the store (the record `t` the
store finds for it, whatever its completed value), updateTodo twice in a row
answers 200 both times, after the first call and after the second the record
found for the identifier is `t` with completed true, and the store after the
second call is the store after the first. -/
theorem updateTodo_idempotent (s : Store) (hex : String) (id : ObjectID) (t : Todo)
    (h : ObjectIDFromHex hex = some id) (hf : s.find? (fun x => x.ID == id) = some t) :
    (updateTodo s hex).2 = .response 200 (.success "Todo updated") ∧
    (updateTodo (updateTodo s hex).1 hex).2 = .response 200 (.success "Todo updated") ∧
    (updateTodo s hex).1.find? (fun x => x.ID == id) = some { t with Completed := true } ∧
    (updateTodo (updateTodo s hex).1 hex).1.find? (fun x => x.ID == id)
      = some { t with Completed := true } ∧
    (updateTodo (updateTodo s hex).1 hex).1 = (updateTodo s hex).1 := by
  have hid : ({ t with Completed := true } : Todo).ID = id := (find_some_spec hf).2
  have hf1 := replaceFirst_find id { t with Completed := true } hid s t hf
  have h1 := updateTodo_found s hex id t h hf
  have h2 := updateTodo_found _ hex id _ h hf1
  have hidem : replaceFirst id { t with Completed := true }
      (replaceFirst id { t with Completed := true } s)
      = replaceFirst id { t with Completed := true } s :=
    replaceFirst_idem id _ hid s
  rw [h1]
  dsimp only
  rw [h2]
  dsimp only
  rw [hidem]
  exact ⟨rfl, rfl, hf1, hf1, rfl⟩

/-- Witness for C7: the record `milk`, not completed before. -/
theorem updateTodo_idempotent_witness :
    (updateTodo [milk] exampleHex).2 = .response 200 (.success "Todo updated") ∧
    (updateTodo (updateTodo [milk] exampleHex).1 exampleHex).2
      = .response 200 (.success "Todo updated") ∧
    (updateTodo [milk] exampleHex).1.find? (fun x => x.ID == exampleId)
      = some { milk with Completed := true } ∧
    (updateTodo (updateTodo [milk] exampleHex).1 exampleHex).1.find? (fun x => x.ID == exampleId)
      = some { milk with Completed := true } ∧
    (updateTodo (updateTodo [milk] exampleHex).1 exampleHex).1 = (updateTodo [milk] exampleHex).1 :=
  updateTodo_idempotent [milk] exampleHex exampleId milk (by decide) (by decide)

theorem ids_append_single (s : Store) (t : Todo) : ids (s ++ [t]) = ids s ++ [t.ID] := by
  simp [ids]

theorem nodup_ids_append (s : Store) (t : Todo) (hu : (ids s).Nodup) (hn : t.ID ∉ ids s) :
    (ids (s ++ [t])).Nodup := by
  rw [ids_append_single]
  refine List.Nodup.append hu (List.nodup_singleton _) ?_
  intro a ha hb
  have : a = t.ID := by simpa using hb
  exact hn (this ▸ ha)

theorem handle_preserves (s : Store) (r : Request) (hinv : StoreInv s) :
    StoreInv (handle s r).1 := by
  obtain ⟨hbody, hu⟩ := hinv
  cases r with
  | getTodos => cases s <;> exact ⟨hbody, hu⟩
  | createTodo req gen =>
    rcases createTodo_cases s req gen with ⟨e, h⟩ | ⟨h, _⟩ | ⟨todo, t, _, hb, ht, hn, h⟩
    · simp only [handle, h]; exact ⟨hbody, hu⟩
    · simp only [handle, h]; exact ⟨hbody, hu⟩
    · simp only [handle, h]
      refine ⟨?_, nodup_ids_append s t hu hn⟩
      intro x hx
      rcases List.mem_append.1 hx with hx | hx
      · exact hbody x hx
      · have : x = t := by simpa using hx
        rw [this, ht]; exact hb
  | deleteTodo hex =>
    cases h : ObjectIDFromHex hex with
    | none => simp only [handle, deleteTodo_invalid s hex h]; exact ⟨hbody, hu⟩
    | some id =>
      simp only [handle, deleteTodo_valid s hex id h]
      exact ⟨fun x hx => hbody x (DeleteOne_subset s id x hx), DeleteOne_nodup s id hu⟩
  | updateTodo hex =>
    cases h : ObjectIDFromHex hex with
    | none => simp only [handle, updateTodo_invalid s hex h]; exact ⟨hbody, hu⟩
    | some id =>
      cases hf : s.find? (fun x => x.ID == id) with
      | none => simp only [handle, updateTodo_missing s hex id h hf]; exact ⟨hbody, hu⟩
      | some t =>
        simp only [handle, updateTodo_found s hex id t h hf]
        have hid : ({ t with Completed := true } : Todo).ID = id := (find_some_spec hf).2
        refine ⟨?_, ?_⟩
        · intro x hx
          rcases replaceFirst_mem id _ s x hx with e | hx
          · rw [e]; exact hbody t (find_some_spec hf).1
          · exact hbody x hx
        · rw [replaceFirst_ids id _ hid s]; exact hu

theorem run_preserves (rs : List Request) (s : Store) (hinv : StoreInv s) :
    StoreInv (run s rs) := by
  induction rs generalizing s with
  | nil => exact hinv
  | cons r rest ih =>
    have hstep := handle_preserves s r hinv
    unfold run
    cases hh : handle s r with
    | mk s' o =>
      rw [hh] at hstep
      cases o with
      | response st p => exact ih s' hstep
      | fatal e => exact hstep

/-- C9: if every record of the store has a non-empty body and no two records
share an id, the same holds of the store after any request to getTodos,
createTodo, deleteTodo or updateTodo, whatever the request (a creation payload
may carry its own id and completed value); hence it holds of the store after
every sequence of requests served from the empty store. -/
theorem store_invariant :
    (∀ (s : Store) (r : Request), StoreInv s → StoreInv (handle s r).1) ∧
    (∀ rs : List Request, StoreInv (run [] rs)) :=
  ⟨handle_preserves, fun rs => run_preserves rs [] ⟨by simp, by simp [ids]⟩⟩

/-- Witness for C9: payloads carrying an `_id` of the store and a new one. -/
theorem store_invariant_witness :
    StoreInv (handle [milk] (.createTodo (some ⟨some exampleId, some true, some "x"⟩) otherId)).1 ∧
    StoreInv (handle [milk] (.createTodo (some ⟨some otherId, some true, some "x"⟩) exampleId)).1 :=
  ⟨store_invariant.1 [milk] _ (by decide), store_invariant.1 [milk] _ (by decide)⟩

/-- C10: in a store whose ids are unique, for every request to any of the four
handlers, a record of the store after the call that has the id of a record
`t` of the store before keeps the body of `t`, is completed if `t` was, and
is either `t` unchanged or `t` with completed set to true; the latter only
when the request is an updateTodo whose path identifier is the id of `t`. -/
theorem surviving_record (s : Store) (r : Request) (hu : (ids s).Nodup) (t t' : Todo)
    (ht : t ∈ s) (ht' : t' ∈ (handle s r).1) (hid : t'.ID = t.ID) :
    t'.ID = t.ID ∧ t'.Body = t.Body ∧ (t.Completed = true → t'.Completed = true) ∧
    (t' = t ∨ (t' = { t with Completed := true } ∧
      ∃ hex, r = .updateTodo hex ∧ ObjectIDFromHex hex = some t.ID)) := by
  have key : t' = t ∨ (t' = { t with Completed := true } ∧
      ∃ hex, r = .updateTodo hex ∧ ObjectIDFromHex hex = some t.ID) := by
    cases r with
    | getTodos =>
      have : (handle s .getTodos).1 = s := by cases s <;> rfl
      rw [this] at ht'
      exact Or.inl (eq_of_same_id hu ht' ht hid)
    | createTodo req gen =>
      rcases createTodo_cases s req gen with ⟨e, h⟩ | ⟨h, _⟩ | ⟨todo, tn, _, hb, htn, hn, h⟩
      · simp only [handle, h] at ht'
        exact Or.inl (eq_of_same_id hu ht' ht hid)
      · simp only [handle, h] at ht'
        exact Or.inl (eq_of_same_id hu ht' ht hid)
      · simp only [handle, h] at ht'
        rcases List.mem_append.1 ht' with hx | hx
        · exact Or.inl (eq_of_same_id hu hx ht hid)
        · have e : t' = tn := by simpa using hx
          exact absurd (mem_ids.2 ⟨t, ht, by rw [← hid, e]⟩) hn
    | deleteTodo hex =>
      cases h : ObjectIDFromHex hex with
      | none =>
        simp only [handle, deleteTodo_invalid s hex h] at ht'
        exact Or.inl (eq_of_same_id hu ht' ht hid)
      | some id =>
        simp only [handle, deleteTodo_valid s hex id h] at ht'
        exact Or.inl (eq_of_same_id hu (DeleteOne_subset s id t' ht') ht hid)
    | updateTodo hex =>
      cases h : ObjectIDFromHex hex with
      | none =>
        simp only [handle, updateTodo_invalid s hex h] at ht'
        exact Or.inl (eq_of_same_id hu ht' ht hid)
      | some id =>
        cases hf : s.find? (fun x => x.ID == id) with
        | none =>
          simp only [handle, updateTodo_missing s hex id h hf] at ht'
          exact Or.inl (eq_of_same_id hu ht' ht hid)
        | some t0 =>
          simp only [handle, updateTodo_found s hex id t0 h hf] at ht'
          obtain ⟨h0mem, h0id⟩ := find_some_spec hf
          rcases replaceFirst_mem id _ s t' ht' with e | hx
          · have e0 : t0 = t := by
              apply eq_of_same_id hu h0mem ht
              rw [← hid, e]
            subst e0
            exact Or.inr ⟨e, hex, rfl, by rw [h, h0id]⟩
          · exact Or.inl (eq_of_same_id hu hx ht hid)
  refine ⟨hid, ?_, ?_, key⟩
  · rcases key with e | ⟨e, _⟩ <;> rw [e]
  · intro hc
    rcases key with e | ⟨e, _⟩
    · rw [e]; exact hc
    · rw [e]

/-- Witness for C10: updateTodo on the record `milk`. -/
theorem surviving_record_witness :
    (⟨exampleId, true, "buy milk"⟩ : Todo).ID = milk.ID ∧
    (⟨exampleId, true, "buy milk"⟩ : Todo).Body = milk.Body ∧
    (milk.Completed = true → (⟨exampleId, true, "buy milk"⟩ : Todo).Completed = true) ∧
    ((⟨exampleId, true, "buy milk"⟩ : Todo) = milk ∨
      ((⟨exampleId, true, "buy milk"⟩ : Todo) = { milk with Completed := true } ∧
        ∃ hex, Request.updateTodo exampleHex = .updateTodo hex ∧
          ObjectIDFromHex hex = some milk.ID)) :=
  surviving_record [milk] (.updateTodo exampleHex) (by decide) milk ⟨exampleId, true, "buy milk"⟩
    (by decide) (by decide) rfl

theorem successfulRun_count (rs : List Request) (created deleted : List ObjectID) (s : Store)
    (hrun : successfulRun created deleted s rs = true) (hu : (ids s).Nodup)
    (hc : ∀ c ∈ created, c ∈ ids s ∨ c ∈ deleted) :
    (run s rs).length + deletes rs = s.length + creates rs := by
  induction rs generalizing created deleted s with
  | nil => simp [run, deletes, creates]
  | cons r rest ih =>
    cases r with
    | getTodos => simp [successfulRun] at hrun
    | updateTodo hex => simp [successfulRun] at hrun
    | createTodo req gen =>
      rcases createTodo_cases s req gen with ⟨e, h⟩ | ⟨h, _⟩ | ⟨todo, t, _, _, _, hn, h⟩
      · simp [successfulRun, h, Outcome.status?] at hrun
      · simp [successfulRun, h, Outcome.status?, Outcome.todo?] at hrun
      · simp only [successfulRun, h, Outcome.status?, Outcome.todo?] at hrun
        have hc' : ∀ c ∈ t.ID :: created, c ∈ ids (s ++ [t]) ∨ c ∈ deleted := by
          intro c hcm
          rw [ids_append_single]
          rcases List.mem_cons.1 hcm with e | hcm
          · left; simp [e]
          · rcases hc c hcm with h1 | h1
            · left; exact List.mem_append_left _ h1
            · right; exact h1
        have := ih (t.ID :: created) deleted (s ++ [t]) hrun (nodup_ids_append s t hu hn) hc'
        have hr : run s (.createTodo req gen :: rest) = run (s ++ [t]) rest := by
          simp [run, handle, h]
        rw [hr]
        simp [deletes, creates] at this ⊢
        omega
    | deleteTodo hex =>
      cases h : ObjectIDFromHex hex with
      | none => simp [successfulRun, h] at hrun
      | some d =>
        simp [successfulRun, h, deleteTodo_valid s hex d h, Outcome.status?] at hrun
        obtain ⟨⟨hdc, hdd⟩, hrest⟩ := hrun
        have hds : d ∈ ids s := (hc d hdc).resolve_right hdd
        have hc' : ∀ c ∈ created, c ∈ ids (DeleteOne s d) ∨ c ∈ d :: deleted := by
          intro c hcm
          by_cases e : c = d
          · right; simp [e]
          · rcases hc c hcm with h1 | h1
            · left
              obtain ⟨x, hx, hxid⟩ := mem_ids.1 h1
              exact mem_ids.2 ⟨x, DeleteOne_keeps s d x hx (by rw [hxid]; exact e), hxid⟩
            · right; exact List.mem_cons_of_mem _ h1
        have := ih created (d :: deleted) (DeleteOne s d) hrest (DeleteOne_nodup s d hu) hc'
        have hlen := DeleteOne_length s d hds
        have hr : run s (.deleteTodo hex :: rest) = run (DeleteOne s d) rest := by
          simp [run, handle, deleteTodo_valid s hex d h]
        rw [hr]
        simp [deletes, creates] at this ⊢
        omega

/-- C8: from the empty store, after a sequence of createTodo and deleteTodo
requests that all succeed, in which every delete targets an identifier
returned by an earlier create and no two deletes target the same identifier,
there are at most as many deletes as creates and getTodos answers 200 with
exactly (number of creates) - (number of deletes) records. -/
theorem list_after_creates_and_deletes (rs : List Request)
    (h : successfulRun [] [] [] rs = true) :
    deletes rs ≤ creates rs ∧
    ∃ ts, (getTodos (run [] rs)).2 = .response 200 (.todos ts) ∧
      ts.elems = run [] rs ∧ ts.len = creates rs - deletes rs := by
  have hcount := successfulRun_count rs [] [] [] h (by simp [ids]) (by simp)
  simp only [List.length_nil, Nat.zero_add] at hcount
  refine ⟨by omega, ?_⟩
  cases hs : run [] rs with
  | nil =>
    rw [hs] at hcount
    refine ⟨none, rfl, rfl, ?_⟩
    simp only [GoSlice.len, List.length_nil] at hcount ⊢
    omega
  | cons t rest =>
    rw [hs] at hcount
    refine ⟨some (t :: rest), by rw [getTodos_cons], rfl, ?_⟩
    simp only [GoSlice.len] at hcount ⊢
    omega

/-- Witness for C8: two creates and one delete leave one record. -/
theorem list_after_creates_and_deletes_witness :
    deletes [.createTodo (some milkJSON) exampleId, .createTodo (some doneJSON) otherId,
        .deleteTodo exampleHex]
      ≤ creates [.createTodo (some milkJSON) exampleId, .createTodo (some doneJSON) otherId,
        .deleteTodo exampleHex] ∧
    ∃ ts, (getTodos (run [] [.createTodo (some milkJSON) exampleId,
        .createTodo (some doneJSON) otherId, .deleteTodo exampleHex])).2
        = .response 200 (.todos ts) ∧
      ts.elems = run [] [.createTodo (some milkJSON) exampleId,
        .createTodo (some doneJSON) otherId, .deleteTodo exampleHex] ∧
      ts.len = creates [.createTodo (some milkJSON) exampleId,
        .createTodo (some doneJSON) otherId, .deleteTodo exampleHex]
        - deletes [.createTodo (some milkJSON) exampleId, .createTodo (some doneJSON) otherId,
        .deleteTodo exampleHex] :=
  list_after_creates_and_deletes _ (by decide)

end ReminderApp
